import Mathlib

/-!
Shallow embedding of the PhysicsBall class from src/physics.js.

The JavaScript code mutates a single object holding the physics state of a
sphere (position, velocity, tunable parameters), the interaction state of a
drag-and-throw state machine, a FIFO trail buffer, and derived visual
outputs (material color, emissive intensity, two indicator arrows).  We model
the object as a structure over the rationals and every method as a function
from state to state.  Floating point numbers are idealised as rationals;
Math.sqrt, which appears only in the visual derivation (THREE.Vector3.length),
is abstracted as an explicit function parameter so that the development stays
executable.  The raycast hit test against the mesh triangles in onPointerDown
is abstracted as a boolean parameter (did the ray hit the ball), and the
pointer handlers receive the world-space ray directly, as the specification
suggests for the port.  The ray or plane intersection of THREE.Ray
.intersectPlane is embedded faithfully, including the mutation semantics
where a null result leaves the target vector untouched.
-/

set_option autoImplicit false
set_option maxRecDepth 40000

/-- A three component vector over the rationals, standing in for
THREE.Vector3. -/
structure Vec3 where
  x : ℚ
  y : ℚ
  z : ℚ
  deriving DecidableEq, Repr

def Vec3.add (a b : Vec3) : Vec3 := ⟨a.x + b.x, a.y + b.y, a.z + b.z⟩

def Vec3.sub (a b : Vec3) : Vec3 := ⟨a.x - b.x, a.y - b.y, a.z - b.z⟩

/-- THREE.Vector3.multiplyScalar. -/
def Vec3.smul (v : Vec3) (s : ℚ) : Vec3 := ⟨v.x * s, v.y * s, v.z * s⟩

def Vec3.dot (a b : Vec3) : ℚ := a.x * b.x + a.y * b.y + a.z * b.z

/-- THREE.Vector3.lengthSq; the actual length is sqrt of this. -/
def Vec3.lengthSq (v : Vec3) : ℚ := Vec3.dot v v

def Vec3.zero : Vec3 := ⟨0, 0, 0⟩

instance : Add Vec3 := ⟨Vec3.add⟩
instance : Sub Vec3 := ⟨Vec3.sub⟩

/-- An rgb color over the rationals, standing in for THREE.Color. -/
structure Color3 where
  r : ℚ
  g : ℚ
  b : ℚ
  deriving DecidableEq, Repr

/-- Linear interpolation of one channel, as in THREE.Color.lerpColors. -/
def lerpQ (a b t : ℚ) : ℚ := a + (b - a) * t

/-- THREE.Color.lerpColors. -/
def lerpColors (c1 c2 : Color3) (t : ℚ) : Color3 :=
  ⟨lerpQ c1.r c2.r t, lerpQ c1.g c2.g t, lerpQ c1.b c2.b t⟩

def colorBlue : Color3 := ⟨0, 0, 1⟩

def colorMagenta : Color3 := ⟨1, 0, 1⟩

def colorRed : Color3 := ⟨1, 0, 0⟩

/-- State of one THREE.ArrowHelper: the fields the code writes. -/
structure ArrowState where
  position : Vec3
  direction : Vec3
  len : ℚ
  headLen : ℚ
  headWidth : ℚ
  visible : Bool
  deriving DecidableEq, Repr

/-- A plane in Hessian normal form, standing in for THREE.Plane:
the plane is the set of points p with dot normal p + constant = 0. -/
structure Plane3 where
  normal : Vec3
  constant : ℚ
  deriving DecidableEq, Repr

/-- A ray, standing in for THREE.Ray: origin plus nonnegative multiples of
the direction. -/
structure Ray3 where
  origin : Vec3
  direction : Vec3
  deriving DecidableEq, Repr

/-- THREE.Plane.setFromNormalAndCoplanarPoint. -/
def Plane3.setFromNormalAndCoplanarPoint (n p : Vec3) : Plane3 :=
  ⟨n, -(Vec3.dot p n)⟩

/-- THREE.Plane.distanceToPoint. -/
def Plane3.distanceToPoint (pl : Plane3) (p : Vec3) : ℚ :=
  Vec3.dot pl.normal p + pl.constant

/-- THREE.Ray.distanceToPlane: none when the ray misses the plane
(parallel and off the plane, or the plane lies behind the origin). -/
def Ray3.distanceToPlane (r : Ray3) (pl : Plane3) : Option ℚ :=
  let denom := Vec3.dot pl.normal r.direction
  if denom = 0 then
    if Plane3.distanceToPoint pl r.origin = 0 then some 0 else none
  else
    let t := -(Vec3.dot r.origin pl.normal + pl.constant) / denom
    if 0 ≤ t then some t else none

/-- THREE.Ray.at. -/
def Ray3.at (r : Ray3) (t : ℚ) : Vec3 := r.origin + Vec3.smul r.direction t

/-- THREE.Ray.intersectPlane with its mutation semantics: the JavaScript
method writes the intersection into the target vector and returns it, but on
a miss it returns null and leaves the target untouched; so we take the
current value of the target and return its new value. -/
def Ray3.intersectPlane (r : Ray3) (pl : Plane3) (target : Vec3) : Vec3 :=
  match r.distanceToPlane pl with
  | some t => r.at t
  | none => target

/-- The visual outputs written by updateVisuals: the mutated fields of the
mesh material and the two indicator arrows. -/
structure VisualState where
  materialColor : Color3
  materialEmissive : Color3
  emissiveIntensity : ℚ
  velocityArrow : ArrowState
  accelerationArrow : ArrowState
  deriving DecidableEq, Repr

/-- The state of the PhysicsBall object: physics fields, tunable
parameters, interaction state, the external camera lock flag
(controls.enabled), the trail buffer together with the flattened line
geometry it renders to, and the visual outputs. -/
structure Ball where
  position : Vec3
  velocity : Vec3
  acceleration : Vec3
  gravity : ℚ
  friction : ℚ
  airResistance : ℚ
  bounciness : ℚ
  radius : ℚ
  isDragging : Bool
  dragPlane : Plane3
  dragOffset : Vec3
  previousPosition : Vec3
  controlsEnabled : Bool
  showTrail : Bool
  showVelocity : Bool
  showAcceleration : Bool
  trailPoints : List Vec3
  maxTrailPoints : ℕ
  trailGeometry : List ℚ
  visual : VisualState
  deriving DecidableEq, Repr

/-- Position of a freshly created mesh: THREE.Object3D starts at the
origin (createBall does not set a position). -/
def createBallPosition : Vec3 := ⟨0, 0, 0⟩

/-- Material color 0xFF00FF set by createBall. -/
def createBallColor : Color3 := colorMagenta

/-- THREE.Vector3.normalize: divide by the length, or by 1 when the length
is zero. -/
def Vec3.normalizeWith (sq : ℚ → ℚ) (v : Vec3) : Vec3 :=
  let l := sq (Vec3.lengthSq v)
  Vec3.smul v (1 / (if l = 0 then 1 else l))

/-- The body of updateVisuals (physics.js lines 217 to 265): speed based
color and emissive intensity, then the velocity arrow, then the
acceleration arrow.  The parameter sq stands for Math.sqrt, used through
THREE.Vector3.length. -/
def computeVisuals (sq : ℚ → ℚ) (b : Ball) : VisualState :=
  let speed := sq (Vec3.lengthSq b.velocity)
  let maxSpeed : ℚ := 15
  let normalizedSpeed := min (speed / maxSpeed) 1
  let color :=
    if normalizedSpeed < 0.5 then
      lerpColors colorBlue colorMagenta (normalizedSpeed * 2)
    else
      lerpColors colorMagenta colorRed ((normalizedSpeed - 0.5) * 2)
  let velocityArrow :=
    if b.showVelocity ∧ (0.1 : ℚ) < speed then
      let direction := Vec3.normalizeWith sq b.velocity
      let len := min (speed * 0.3) 3
      (⟨b.position, direction, len, len * 0.2, len * 0.15, true⟩ : ArrowState)
    else
      { b.visual.velocityArrow with visible := false }
  let accelerationArrow :=
    if b.showAcceleration ∧ (0.1 : ℚ) < sq (Vec3.lengthSq b.acceleration) then
      let direction := Vec3.normalizeWith sq b.acceleration
      let len := min (sq (Vec3.lengthSq b.acceleration) * 0.1) 2
      (⟨b.position, direction, len, len * 0.2, len * 0.15, true⟩ : ArrowState)
    else
      { b.visual.accelerationArrow with visible := false }
  { materialColor := color
    materialEmissive := color
    emissiveIntensity := 0.2 + normalizedSpeed * 0.3
    velocityArrow := velocityArrow
    accelerationArrow := accelerationArrow }

/-- updateVisuals writes only the visual outputs. -/
def updateVisuals (sq : ℚ → ℚ) (b : Ball) : Ball :=
  { b with visual := computeVisuals sq b }

/-- The trail buffer step inside updateTrail: push the current position,
then shift off the oldest point when the length exceeds the cap. -/
def trailPush (cap : ℕ) (trail : List Vec3) (p : Vec3) : List Vec3 :=
  let t := trail ++ [p]
  if cap < t.length then t.drop 1 else t

/-- The flattened positions array built for the line geometry. -/
def trailFlatten (ps : List Vec3) : List ℚ :=
  ps.foldr (fun p acc => p.x :: p.y :: p.z :: acc) []

/-- updateTrail (physics.js lines 198 to 215): no-op when the trail is
disabled, else push the position, cap the buffer, rebuild the geometry. -/
def updateTrail (b : Ball) : Ball :=
  if b.showTrail then
    let t := trailPush b.maxTrailPoints b.trailPoints b.position
    { b with trailPoints := t, trailGeometry := trailFlatten t }
  else b

/-- The diagnostic acceleration recomputed each non-dragging step
(physics.js lines 168 to 170): gravity plus the drag force term. -/
def accelStep (b : Ball) : Vec3 :=
  (⟨0, b.gravity, 0⟩ : Vec3) + Vec3.smul b.velocity (-(1 - b.airResistance) * 10)

/-- The velocity after one integration step (physics.js lines 172 to 174):
gravity added to the y component, then all components scaled by
airResistance. -/
def velStep (b : Ball) (deltaTime : ℚ) : Vec3 :=
  Vec3.smul ⟨b.velocity.x, b.velocity.y + b.gravity * deltaTime, b.velocity.z⟩
    b.airResistance

/-- The position after one integration step (physics.js lines 176 to 178):
the old position plus the new velocity times deltaTime. -/
def posStep (b : Ball) (deltaTime : ℚ) : Vec3 :=
  b.position + Vec3.smul (velStep b deltaTime) deltaTime

/-- Ground collision response (physics.js lines 180 to 191), applied to the
post-integration state: when the center has sunk below the radius, clamp y
to the radius, reflect and damp the vertical velocity by bounciness, damp
the horizontal velocity by friction, and zero a tiny vertical velocity. -/
def groundCollide (b : Ball) : Ball :=
  if b.position.y < b.radius then
    let py := b.radius
    let vy := b.velocity.y * (-b.bounciness)
    let vx := b.velocity.x * b.friction
    let vz := b.velocity.z * b.friction
    let vy2 := if |vy| < 0.1 then (0 : ℚ) else vy
    { b with position := ⟨b.position.x, py, b.position.z⟩,
             velocity := ⟨vx, vy2, vz⟩ }
  else b

/-- update(deltaTime) (physics.js lines 159 to 196): while dragging only
the visuals refresh; otherwise recompute the diagnostic acceleration,
integrate velocity and position, resolve ground collision, append to the
trail and refresh the visuals. -/
def update (sq : ℚ → ℚ) (b : Ball) (deltaTime : ℚ) : Ball :=
  if b.isDragging then
    updateVisuals sq b
  else
    let b1 := { b with acceleration := accelStep b }
    let b2 := { b1 with velocity := velStep b deltaTime }
    let b3 := { b2 with position := posStep b deltaTime }
    let b4 := groundCollide b3
    let b5 := updateTrail b4
    updateVisuals sq b5

/-- onPointerDown (physics.js lines 97 to 128).  The parameter hit stands
for the raycast test intersects.length > 0 against the mesh; ray is the
picking ray and cameraDirection the camera view direction.  On a hit the
body enters dragging, locks the camera, builds the drag plane through the
current center, computes the drag offset (on a missed plane intersection
the stale dragOffset value is reused, matching the mutation semantics),
snapshots previousPosition and zeroes the velocity. -/
def onPointerDown (b : Ball) (hit : Bool) (ray : Ray3) (cameraDirection : Vec3) :
    Ball :=
  if hit then
    let plane := Plane3.setFromNormalAndCoplanarPoint cameraDirection b.position
    let off0 := ray.intersectPlane plane b.dragOffset
    let off := off0 - b.position
    { b with isDragging := true, controlsEnabled := false, dragPlane := plane,
             dragOffset := off, previousPosition := b.position,
             velocity := Vec3.zero }
  else b

/-- onPointerMove (physics.js lines 130 to 144).  While dragging, the ray
is intersected with the stored drag plane into a fresh zero vector; the
return value is not checked, so on a miss the zero vector is used as the
intersection point; previousPosition is snapshotted and the position is set
to the intersection point minus the drag offset. -/
def onPointerMove (b : Ball) (ray : Ray3) : Ball :=
  if b.isDragging then
    let intersectPoint := ray.intersectPlane b.dragPlane Vec3.zero
    { b with previousPosition := b.position,
             position := intersectPoint - b.dragOffset }
  else b

/-- onPointerUp (physics.js lines 146 to 157): when dragging, the throw
velocity is ten times the position delta since the last snapshot, the
camera is unlocked and dragging ends; otherwise nothing happens. -/
def onPointerUp (b : Ball) : Ball :=
  if b.isDragging then
    { b with velocity := Vec3.smul (b.position - b.previousPosition) 10,
             controlsEnabled := true, isDragging := false }
  else b

/-- reset (physics.js lines 300 to 306): restore the start position and
zero velocity, set the diagnostic acceleration to pure gravity, clear the
trail and run updateTrail once (which reseeds the trail with the current
position when the trail is enabled). -/
def Ball.reset (b : Ball) : Ball :=
  let b1 := { b with position := ⟨0, 3, 0⟩, velocity := ⟨0, 0, 0⟩,
                     acceleration := ⟨0, b.gravity, 0⟩,
                     trailPoints := ([] : List Vec3) }
  updateTrail b1

/-- setRadius (physics.js lines 308 to 320): store the new radius, replace
the mesh by a freshly created one (which sits at the origin with the
default material), copy the new mesh position onto itself, and clamp y up
to the radius when below it. -/
def setRadius (b : Ball) (newRadius : ℚ) : Ball :=
  let b1 := { b with radius := newRadius }
  let b2 := { b1 with position := createBallPosition,
                      visual := { b1.visual with
                                    materialColor := createBallColor,
                                    materialEmissive := createBallColor,
                                    emissiveIntensity := 0.2 } }
  let currentPos := b2.position
  let b3 := { b2 with position := currentPos }
  if b3.position.y < b3.radius then
    { b3 with position := ⟨b3.position.x, b3.radius, b3.position.z⟩ }
  else b3

/-- Default arrow state as built in the constructor. -/
def initialArrow : ArrowState :=
  ⟨⟨0, 0, 0⟩, ⟨0, 1, 0⟩, 1, 0.2, 0.15, true⟩

/-- The state right after the constructor runs: position (0,3,0), zero
velocity, the default tunables, an empty trail, dragging off, camera
unlocked, all displays on. -/
def initialBall : Ball :=
  { position := ⟨0, 3, 0⟩
    velocity := ⟨0, 0, 0⟩
    acceleration := ⟨0, 0, 0⟩
    gravity := -9.8
    friction := 0.98
    airResistance := 0.99
    bounciness := 0.7
    radius := 0.5
    isDragging := false
    dragPlane := ⟨⟨1, 0, 0⟩, 0⟩
    dragOffset := ⟨0, 0, 0⟩
    previousPosition := ⟨0, 0, 0⟩
    controlsEnabled := true
    showTrail := true
    showVelocity := true
    showAcceleration := true
    trailPoints := []
    maxTrailPoints := 50
    trailGeometry := []
    visual := { materialColor := colorMagenta
                materialEmissive := colorMagenta
                emissiveIntensity := 0.2
                velocityArrow := initialArrow
                accelerationArrow := initialArrow } }

/-- A stand-in square root used where a concrete instance of the abstract
sqrt parameter is needed; the claims settled here do not depend on its
values. -/
def sqZero : ℚ → ℚ := fun _ => 0

/-! Supporting lemmas: which fields each operation leaves untouched. -/

theorem updateVisuals_position (sq : ℚ → ℚ) (b : Ball) :
    (updateVisuals sq b).position = b.position := rfl

theorem updateVisuals_velocity (sq : ℚ → ℚ) (b : Ball) :
    (updateVisuals sq b).velocity = b.velocity := rfl

theorem updateVisuals_isDragging (sq : ℚ → ℚ) (b : Ball) :
    (updateVisuals sq b).isDragging = b.isDragging := rfl

theorem updateVisuals_radius (sq : ℚ → ℚ) (b : Ball) :
    (updateVisuals sq b).radius = b.radius := rfl

theorem updateTrail_position (b : Ball) :
    (updateTrail b).position = b.position := by
  unfold updateTrail; split <;> rfl

theorem updateTrail_velocity (b : Ball) :
    (updateTrail b).velocity = b.velocity := by
  unfold updateTrail; split <;> rfl

theorem updateTrail_radius (b : Ball) :
    (updateTrail b).radius = b.radius := by
  unfold updateTrail; split <;> rfl

theorem groundCollide_radius (b : Ball) :
    (groundCollide b).radius = b.radius := by
  unfold groundCollide; split <;> rfl

theorem groundCollide_position_y (b : Ball) :
    b.radius ≤ (groundCollide b).position.y ∨
      (groundCollide b).position.y = b.position.y := by
  unfold groundCollide; split
  · exact Or.inl (le_refl b.radius)
  · exact Or.inr rfl

theorem update_not_dragging (sq : ℚ → ℚ) (b : Ball) (deltaTime : ℚ)
    (h : b.isDragging = false) :
    update sq b deltaTime =
      updateVisuals sq (updateTrail (groundCollide
        { b with acceleration := accelStep b,
                 velocity := velStep b deltaTime,
                 position := posStep b deltaTime })) := by
  simp only [update, h, Bool.false_eq_true, if_false]

theorem update_dragging (sq : ℚ → ℚ) (b : Ball) (deltaTime : ℚ)
    (h : b.isDragging = true) :
    update sq b deltaTime = updateVisuals sq b := by
  simp only [update, h, if_true]

/-! Claim theorems. -/

/-- A dragging state whose center was dragged below the ground plane. -/
def c1Ball : Ball :=
  { initialBall with isDragging := true, position := ⟨0, 0, 0⟩ }

/-- C1, counterexample: the claim quantifies over every prior state, but a
state that is mid-drag with its center already below the radius (the drag
plane intersection can place it anywhere) is left where it is by advance,
because update returns after refreshing visuals while isDragging holds.
Here a dragging ball with center (0,0,0) and radius 0.5 stays at y = 0. -/
theorem c1_ground_invariant_cex :
    c1Ball.isDragging = true ∧
    ¬ ((update sqZero c1Ball (1/60)).radius ≤
       (update sqZero c1Ball (1/60)).position.y) := by
  constructor
  · rfl
  · with_unfolding_all decide

/-- C1, amended: for every deltaTime and every prior state that is not
dragging, after one call to advance the y component of the position is at
least the radius, and the radius is unchanged.  (While dragging, advance
skips the physics and the ground clamp entirely, so a dragged state below
ground stays there.) -/
theorem c1_ground_invariant_amended (sq : ℚ → ℚ) (b : Ball) (deltaTime : ℚ)
    (h : b.isDragging = false) :
    (update sq b deltaTime).radius = b.radius ∧
    b.radius ≤ (update sq b deltaTime).position.y := by
  rw [update_not_dragging sq b deltaTime h]
  set b3 : Ball := { b with acceleration := accelStep b,
                            velocity := velStep b deltaTime,
                            position := posStep b deltaTime } with hb3
  constructor
  · rw [updateVisuals_radius, updateTrail_radius, groundCollide_radius]
  · rw [updateVisuals_position, updateTrail_position]
    unfold groundCollide
    split
    · exact le_refl _
    · next hno =>
        have : b.radius ≤ b3.position.y := le_of_not_lt (by simpa using hno)
        simpa using this

/-- C1, witness: the amended theorem applied to the freshly constructed
ball with deltaTime one sixtieth. -/
theorem c1_ground_invariant_witness :
    initialBall.isDragging = false ∧
    ((update sqZero initialBall (1/60)).radius = initialBall.radius ∧
     initialBall.radius ≤ (update sqZero initialBall (1/60)).position.y) :=
  ⟨rfl, c1_ground_invariant_amended sqZero initialBall (1/60) rfl⟩

/-- C9: grabbing the ball (a pointer down whose raycast hits the mesh)
enters the dragging state, and a pointer up with no pointer move in between
yields the zero throw velocity, because previousPosition was snapshotted to
the position on the grab and the throw is ten times their difference. -/
theorem c9_throw_no_move (b : Ball) (ray : Ray3) (cameraDirection : Vec3) :
    (onPointerDown b true ray cameraDirection).isDragging = true ∧
    (onPointerUp (onPointerDown b true ray cameraDirection)).velocity =
      (⟨0, 0, 0⟩ : Vec3) := by
  constructor
  · rfl
  · show Vec3.smul (Vec3.sub b.position b.position) 10 = (⟨0, 0, 0⟩ : Vec3)
    simp [Vec3.smul, Vec3.sub]

/-- C10: a pointer up received while not dragging is a complete no-op on
the state: in particular velocity, position, isDragging and the camera
lock flag controls.enabled are all unchanged. -/
theorem c10_pointerUp_idle_noop (b : Ball) (h : b.isDragging = false) :
    onPointerUp b = b := by
  simp only [onPointerUp, h, Bool.false_eq_true, if_false]

/-- C10, witness: the theorem applied to the freshly constructed ball. -/
theorem c10_pointerUp_witness :
    initialBall.isDragging = false ∧ onPointerUp initialBall = initialBall :=
  ⟨rfl, c10_pointerUp_idle_noop initialBall rfl⟩

/-- A ball resting away from the origin, used to probe setRadius. -/
def c2Ball : Ball := { initialBall with position := ⟨5, 3, 2⟩ }

/-- C2, evaluation at the failing input: setRadius stores the new radius,
but it does not preserve the center.  The code reads currentPos from the
freshly created replacement mesh, which sits at the origin, rather than
from the old mesh, so the center ends up at (0, r, 0) instead of staying
put; its own comment says RESTORE POSITION.  Here a ball at (5,3,2) given
setRadius(1) ends at (0,1,0). -/
theorem c2_setRadius_eval :
    (setRadius c2Ball 1).radius = 1 ∧
    c2Ball.position = (⟨5, 3, 2⟩ : Vec3) ∧
    (setRadius c2Ball 1).position = (⟨0, 1, 0⟩ : Vec3) ∧
    (setRadius c2Ball 1).position ≠ c2Ball.position := by
  with_unfolding_all decide

/-- A mid-drag state whose stored drag plane is the plane z = 5. -/
def c3Ball : Ball :=
  { initialBall with isDragging := true, position := ⟨2, 3, 2⟩,
                     dragOffset := ⟨1, 1, 1⟩, dragPlane := ⟨⟨0, 0, 1⟩, -5⟩ }

/-- A pointer ray parallel to that drag plane. -/
def c3Ray : Ray3 := ⟨⟨0, 0, 0⟩, ⟨1, 0, 0⟩⟩

/-- C3, evaluation at the failing input: when the pointer ray is parallel
to the stored drag plane, intersectPlane returns null, but onPointerMove
never checks the return value; the freshly zeroed intersection vector is
used anyway and the ball is teleported to minus the drag offset instead of
the position write being skipped.  Here the ball at (2,3,2) with drag
offset (1,1,1) jumps to (-1,-1,-1). -/
theorem c3_pointerMove_parallel_eval :
    c3Ball.isDragging = true ∧
    Ray3.distanceToPlane c3Ray c3Ball.dragPlane = none ∧
    c3Ball.position = (⟨2, 3, 2⟩ : Vec3) ∧
    (onPointerMove c3Ball c3Ray).position = (⟨-1, -1, -1⟩ : Vec3) ∧
    (onPointerMove c3Ball c3Ray).position ≠ c3Ball.position := by
  with_unfolding_all decide

/-- groundCollide is the identity when the center is not below the
radius. -/
theorem groundCollide_no_contact (b : Ball) (h : ¬ b.position.y < b.radius) :
    groundCollide b = b := by
  unfold groundCollide
  rw [if_neg h]

/-- groundCollide with ground contact: clamp y, reflect and damp the
vertical velocity, damp the horizontal velocity, snap a tiny vertical
velocity to zero. -/
theorem groundCollide_contact (b : Ball) (h : b.position.y < b.radius) :
    groundCollide b =
      { b with position := ⟨b.position.x, b.radius, b.position.z⟩,
               velocity := ⟨b.velocity.x * b.friction,
                            if |b.velocity.y * (-b.bounciness)| < 0.1 then 0
                            else b.velocity.y * (-b.bounciness),
                            b.velocity.z * b.friction⟩ } := by
  unfold groundCollide
  rw [if_pos h]

theorem Vec3.add_def (a b : Vec3) : a + b = Vec3.add a b := rfl

theorem Vec3.sub_def (a b : Vec3) : a - b = Vec3.sub a b := rfl

/-- C4: with dragging off and no ground contact after the move (the
post-integration y is not below the radius), one advance produces exactly
the velocity airResistance times (velocity plus gravity times deltaTime on
the y axis), componentwise, and the position advances by that new velocity
times deltaTime. -/
theorem c4_integration_step (sq : ℚ → ℚ) (b : Ball) (deltaTime : ℚ)
    (h1 : b.isDragging = false) (h2 : ¬ (posStep b deltaTime).y < b.radius) :
    (update sq b deltaTime).velocity =
      Vec3.smul (b.velocity + (⟨0, b.gravity * deltaTime, 0⟩ : Vec3))
        b.airResistance ∧
    (update sq b deltaTime).position =
      b.position + Vec3.smul ((update sq b deltaTime).velocity) deltaTime := by
  rw [update_not_dragging sq b deltaTime h1]
  set b3 : Ball := { b with acceleration := accelStep b,
                            velocity := velStep b deltaTime,
                            position := posStep b deltaTime } with hb3
  have hgc : groundCollide b3 = b3 := groundCollide_no_contact b3 h2
  rw [hgc]
  have hv : (updateVisuals sq (updateTrail b3)).velocity = velStep b deltaTime := by
    rw [updateVisuals_velocity, updateTrail_velocity]
  have hp : (updateVisuals sq (updateTrail b3)).position = posStep b deltaTime := by
    rw [updateVisuals_position, updateTrail_position]
  constructor
  · rw [hv]
    simp [velStep, Vec3.add_def, Vec3.add, Vec3.smul, Vec3.mk.injEq]
  · rw [hp, hv]
    rfl

/-- C4, witness: the theorem applied to the freshly constructed ball with
deltaTime one sixtieth; the ball starts at height 3 so there is no ground
contact. -/
theorem c4_integration_witness :
    (initialBall.isDragging = false ∧
     ¬ (posStep initialBall (1/60)).y < initialBall.radius) ∧
    ((update sqZero initialBall (1/60)).velocity =
       Vec3.smul (initialBall.velocity +
         (⟨0, initialBall.gravity * (1/60), 0⟩ : Vec3))
         initialBall.airResistance ∧
     (update sqZero initialBall (1/60)).position =
       initialBall.position +
         Vec3.smul ((update sqZero initialBall (1/60)).velocity) (1/60)) :=
  ⟨⟨rfl, by with_unfolding_all decide⟩,
   c4_integration_step sqZero initialBall (1/60) rfl
     (by with_unfolding_all decide)⟩

/-- A ball one and a half units up, falling so that after exactly one step
its center lands exactly on the radius. -/
def c5CexBall : Ball :=
  { initialBall with position := ⟨0, 3/2, 0⟩, gravity := -1, airResistance := 1 }

/-- C5, counterexample: the ground branch of update fires only when the
post-integration y is strictly below the radius; landing exactly on
position.y == radius does not bounce.  Here the integrated center lands
exactly at y = radius = 0.5 with downward velocity -1, and the outgoing
vertical velocity stays -1 instead of the claimed
-bounciness times -1 = 0.7. -/
theorem c5_bounce_eq_cex :
    c5CexBall.isDragging = false ∧
    (posStep c5CexBall 1).y = c5CexBall.radius ∧
    (velStep c5CexBall 1).y < 0 ∧
    (update sqZero c5CexBall 1).velocity.y ≠
      -c5CexBall.bounciness * (velStep c5CexBall 1).y := by
  with_unfolding_all decide

/-- C5, amended: the bounce response fires when the post-integration
position.y is strictly below the radius (not when it equals it); with
dragging off and the velocity at the collision check (after the gravity
and air resistance update) pointing down, one advance clamps position.y to
the radius, scales the horizontal velocity components by friction, and
sets the vertical velocity to -bounciness times the incoming vertical
velocity, snapped to exactly 0 when its absolute value is below 0.1. -/
theorem c5_bounce_amended (sq : ℚ → ℚ) (b : Ball) (deltaTime : ℚ)
    (h1 : b.isDragging = false)
    (h2 : (posStep b deltaTime).y < b.radius)
    (h3 : (velStep b deltaTime).y < 0) :
    (update sq b deltaTime).position.y = b.radius ∧
    (update sq b deltaTime).velocity.x = (velStep b deltaTime).x * b.friction ∧
    (update sq b deltaTime).velocity.z = (velStep b deltaTime).z * b.friction ∧
    (update sq b deltaTime).velocity.y =
      (if |(velStep b deltaTime).y * (-b.bounciness)| < 0.1 then 0
       else (velStep b deltaTime).y * (-b.bounciness)) := by
  rw [update_not_dragging sq b deltaTime h1]
  set b3 : Ball := { b with acceleration := accelStep b,
                            velocity := velStep b deltaTime,
                            position := posStep b deltaTime } with hb3
  rw [groundCollide_contact b3 h2]
  set b4 : Ball := { b3 with
    position := ⟨b3.position.x, b3.radius, b3.position.z⟩,
    velocity := ⟨b3.velocity.x * b3.friction,
                 if |b3.velocity.y * (-b3.bounciness)| < 0.1 then 0
                 else b3.velocity.y * (-b3.bounciness),
                 b3.velocity.z * b3.friction⟩ } with hb4
  refine ⟨?_, ?_, ?_, ?_⟩
  · rw [updateVisuals_position, updateTrail_position]
  · rw [updateVisuals_velocity, updateTrail_velocity]
  · rw [updateVisuals_velocity, updateTrail_velocity]
  · rw [updateVisuals_velocity, updateTrail_velocity]

/-- A falling ball that penetrates the ground in one unit step. -/
def c5WitnessBall : Ball :=
  { initialBall with position := ⟨0, 1/2, 0⟩, velocity := ⟨3, -1, 2⟩,
                     gravity := -1, airResistance := 1 }

/-- C5, witness: the amended theorem applied to a concrete falling ball
with deltaTime one. -/
theorem c5_bounce_witness :
    (c5WitnessBall.isDragging = false ∧
     (posStep c5WitnessBall 1).y < c5WitnessBall.radius ∧
     (velStep c5WitnessBall 1).y < 0) ∧
    ((update sqZero c5WitnessBall 1).position.y = c5WitnessBall.radius ∧
     (update sqZero c5WitnessBall 1).velocity.x =
       (velStep c5WitnessBall 1).x * c5WitnessBall.friction ∧
     (update sqZero c5WitnessBall 1).velocity.z =
       (velStep c5WitnessBall 1).z * c5WitnessBall.friction ∧
     (update sqZero c5WitnessBall 1).velocity.y =
       (if |(velStep c5WitnessBall 1).y * (-c5WitnessBall.bounciness)| < 0.1
        then 0
        else (velStep c5WitnessBall 1).y * (-c5WitnessBall.bounciness))) :=
  ⟨⟨rfl, by with_unfolding_all decide, by with_unfolding_all decide⟩,
   c5_bounce_amended sqZero c5WitnessBall 1 rfl
     (by with_unfolding_all decide) (by with_unfolding_all decide)⟩

/-- C6: while a drag is in progress, any number of repeated advance calls
leaves the position and the velocity (and the dragging flag itself)
unchanged, because update returns right after refreshing the visual
outputs. -/
theorem c6_drag_freezes_physics (sq : ℚ → ℚ) (b : Ball) (deltaTime : ℚ)
    (h : b.isDragging = true) (n : ℕ) :
    ((fun s => update sq s deltaTime)^[n] b).position = b.position ∧
    ((fun s => update sq s deltaTime)^[n] b).velocity = b.velocity ∧
    ((fun s => update sq s deltaTime)^[n] b).isDragging = true := by
  induction n with
  | zero => exact ⟨rfl, rfl, h⟩
  | succ n ih =>
      obtain ⟨hp, hv, hd⟩ := ih
      rw [Function.iterate_succ_apply']
      set s := (fun s => update sq s deltaTime)^[n] b with hs
      rw [update_dragging sq s deltaTime hd]
      exact ⟨by rw [updateVisuals_position, hp],
             by rw [updateVisuals_velocity, hv],
             by rw [updateVisuals_isDragging, hd]⟩

/-- A mid-drag state with nonzero velocity and off-center position. -/
def c6Ball : Ball :=
  { initialBall with isDragging := true, position := ⟨1, 2, 3⟩,
                     velocity := ⟨4, 5, 6⟩ }

/-- C6, witness: three advance calls on a concrete dragging ball leave
position and velocity untouched. -/
theorem c6_drag_witness :
    c6Ball.isDragging = true ∧
    (((fun s => update sqZero s (1/60))^[3] c6Ball).position =
       c6Ball.position ∧
     ((fun s => update sqZero s (1/60))^[3] c6Ball).velocity =
       c6Ball.velocity ∧
     ((fun s => update sqZero s (1/60))^[3] c6Ball).isDragging = true) :=
  ⟨rfl, c6_drag_freezes_physics sqZero c6Ball (1/60) rfl 3⟩

/-- A state with the trail display turned off and a stale trail. -/
def c7Ball : Ball :=
  { initialBall with showTrail := false, trailPoints := [⟨1, 1, 1⟩] }

/-- C7, counterexample: reset clears the trail and then calls updateTrail,
but updateTrail returns immediately when showTrail is off, so the trail is
left empty instead of being reseeded with the current position as the
claim demands for every prior state. -/
theorem c7_reset_trail_cex :
    c7Ball.showTrail = false ∧
    (Ball.reset c7Ball).position = (⟨0, 3, 0⟩ : Vec3) ∧
    (Ball.reset c7Ball).trailPoints = [] ∧
    (Ball.reset c7Ball).trailPoints ≠ [(⟨0, 3, 0⟩ : Vec3)] := by
  with_unfolding_all decide

/-- C7, amended: reset is idempotent and, regardless of prior state,
restores the position to (0,3,0), zeroes the velocity, sets the diagnostic
acceleration to pure gravity (0, gravityMagnitude, 0), and clears the
trail, reseeding it with the current position exactly when the trail
display is enabled (it stays empty when the display is off); no tunable
parameter (gravity, friction, airResistance, bounciness) and not the
radius is altered.  The trail cap is positive, as the constructor fixes it
at 50. -/
theorem c7_reset_amended (b : Ball) (hcap : 0 < b.maxTrailPoints) :
    Ball.reset (Ball.reset b) = Ball.reset b ∧
    (Ball.reset b).position = (⟨0, 3, 0⟩ : Vec3) ∧
    (Ball.reset b).velocity = (⟨0, 0, 0⟩ : Vec3) ∧
    (Ball.reset b).acceleration = (⟨0, b.gravity, 0⟩ : Vec3) ∧
    (Ball.reset b).trailPoints =
      (if b.showTrail then [(⟨0, 3, 0⟩ : Vec3)] else []) ∧
    (Ball.reset b).gravity = b.gravity ∧
    (Ball.reset b).friction = b.friction ∧
    (Ball.reset b).airResistance = b.airResistance ∧
    (Ball.reset b).bounciness = b.bounciness ∧
    (Ball.reset b).radius = b.radius := by
  have hcap1 : ¬ (b.maxTrailPoints <
      (([] : List Vec3) ++ [(⟨0, 3, 0⟩ : Vec3)]).length) := by
    simp only [List.nil_append, List.length_singleton]
    omega
  by_cases h : b.showTrail
  · simp [Ball.reset, updateTrail, trailPush, trailFlatten, h, hcap1, hcap.ne']
  · simp [Ball.reset, updateTrail, h]

/-- C7, witness: the amended theorem applied to the freshly constructed
ball, whose trail cap is 50. -/
theorem c7_reset_witness :
    0 < initialBall.maxTrailPoints ∧
    (Ball.reset (Ball.reset initialBall) = Ball.reset initialBall ∧
     (Ball.reset initialBall).position = (⟨0, 3, 0⟩ : Vec3) ∧
     (Ball.reset initialBall).velocity = (⟨0, 0, 0⟩ : Vec3) ∧
     (Ball.reset initialBall).acceleration =
       (⟨0, initialBall.gravity, 0⟩ : Vec3) ∧
     (Ball.reset initialBall).trailPoints =
       (if initialBall.showTrail then [(⟨0, 3, 0⟩ : Vec3)] else []) ∧
     (Ball.reset initialBall).gravity = initialBall.gravity ∧
     (Ball.reset initialBall).friction = initialBall.friction ∧
     (Ball.reset initialBall).airResistance = initialBall.airResistance ∧
     (Ball.reset initialBall).bounciness = initialBall.bounciness ∧
     (Ball.reset initialBall).radius = initialBall.radius) :=
  ⟨by with_unfolding_all decide,
   c7_reset_amended initialBall (by with_unfolding_all decide)⟩

theorem updateVisuals_trailPoints (sq : ℚ → ℚ) (b : Ball) :
    (updateVisuals sq b).trailPoints = b.trailPoints := rfl

theorem updateTrail_trailPoints_show (b : Ball) (h : b.showTrail = true) :
    (updateTrail b).trailPoints =
      trailPush b.maxTrailPoints b.trailPoints b.position := by
  simp [updateTrail, h]

theorem groundCollide_trailPoints (b : Ball) :
    (groundCollide b).trailPoints = b.trailPoints := by
  unfold groundCollide; split <;> rfl

theorem groundCollide_showTrail (b : Ball) :
    (groundCollide b).showTrail = b.showTrail := by
  unfold groundCollide; split <;> rfl

theorem groundCollide_maxTrailPoints (b : Ball) :
    (groundCollide b).maxTrailPoints = b.maxTrailPoints := by
  unfold groundCollide; split <;> rfl

/-- Each eligible frame (dragging off, trail display on) performs exactly
one trailPush of the post-collision position on the trail buffer. -/
theorem update_performs_trailPush (sq : ℚ → ℚ) (b : Ball) (deltaTime : ℚ)
    (h1 : b.isDragging = false) (h2 : b.showTrail = true) :
    (update sq b deltaTime).trailPoints =
      trailPush b.maxTrailPoints b.trailPoints
        (update sq b deltaTime).position := by
  rw [update_not_dragging sq b deltaTime h1]
  set b4 : Ball := groundCollide { b with acceleration := accelStep b,
                                          velocity := velStep b deltaTime,
                                          position := posStep b deltaTime }
    with hb4
  have hshow : b4.showTrail = true := by
    rw [hb4, groundCollide_showTrail]; exact h2
  rw [updateVisuals_trailPoints, updateVisuals_position, updateTrail_position,
      updateTrail_trailPoints_show b4 hshow, hb4,
      groundCollide_trailPoints, groundCollide_maxTrailPoints]

/-- The trail buffer after any sequence of pushes, starting from a buffer
not above the cap: the result is the suffix of the concatenated history
that fits the cap (exactly the most recent points, in append order). -/
theorem trailPush_foldl (cap : ℕ) (ps : List Vec3) :
    ∀ init : List Vec3, init.length ≤ cap →
      List.foldl (trailPush cap) init ps =
        (init ++ ps).drop (init.length + ps.length - cap) := by
  induction ps with
  | nil =>
      intro init h
      simp [Nat.sub_eq_zero_of_le h]
  | cons p tl ih =>
      intro init h
      rw [List.foldl_cons]
      rcases Nat.lt_or_ge init.length cap with hlt | hge
      · have hcond : ¬ (cap < (init ++ [p]).length) := by
          simp only [List.length_append, List.length_cons, List.length_nil]
          omega
        have hpush : trailPush cap init p = init ++ [p] := by
          simp only [trailPush]
          rw [if_neg hcond]
        have hlen : (init ++ [p]).length ≤ cap := by
          simp only [List.length_append, List.length_cons, List.length_nil]
          omega
        have hassoc : (init ++ [p]) ++ tl = init ++ p :: tl := by simp
        rw [hpush, ih (init ++ [p]) hlen, hassoc]
        congr 1
        simp only [List.length_append, List.length_cons, List.length_nil]
        omega
      · have hcond : cap < (init ++ [p]).length := by
          simp only [List.length_append, List.length_cons, List.length_nil]
          omega
        have hpush : trailPush cap init p = (init ++ [p]).drop 1 := by
          simp only [trailPush]
          rw [if_pos hcond]
        have hlen : ((init ++ [p]).drop 1).length ≤ cap := by
          simp only [List.length_drop, List.length_append, List.length_cons,
                     List.length_nil]
          omega
        have hle1 : 1 ≤ (init ++ [p]).length := by
          simp only [List.length_append, List.length_cons, List.length_nil]
          omega
        have hassoc : (init ++ [p]) ++ tl = init ++ p :: tl := by simp
        rw [hpush, ih _ hlen, ← List.drop_append_of_le_length hle1,
            List.drop_drop, hassoc]
        congr 1
        simp only [List.length_drop, List.length_append, List.length_cons,
                   List.length_nil]
        omega

/-- Fifty-two distinct sample points. -/
def c8Samples : List Vec3 := (List.range 52).map (fun i => ⟨(i : ℚ), 0, 0⟩)

/-- C8, counterexample: after 52 eligible samples from an empty trail the
buffer indeed holds 50 points, but its oldest retained point is the third
oldest ever appended, not the second oldest as the claim states for every
sequence of more than 50 samples (that only holds right after the 51st
sample). -/
theorem c8_trail_second_oldest_cex :
    50 < c8Samples.length ∧
    c8Samples.get? 1 = some (⟨1, 0, 0⟩ : Vec3) ∧
    (List.foldl (trailPush 50) [] c8Samples).head? ≠
      some (⟨1, 0, 0⟩ : Vec3) ∧
    (List.foldl (trailPush 50) [] c8Samples).head? =
      some (⟨2, 0, 0⟩ : Vec3) := by
  with_unfolding_all decide

/-- C8, amended: after a sequence of n > 50 eligible trail samples starting
from an empty buffer, trailPoints is exactly the last 50 appended points in
append order (each overflow dropped exactly the then-oldest point), so its
length is 50 and its oldest retained point is the (n - 49)th oldest ever
appended; right after the overflow caused by the 51st sample this is the
2nd oldest ever appended. -/
theorem c8_trail_fifo_amended (ps : List Vec3) (h : 50 < ps.length) :
    List.foldl (trailPush 50) [] ps = ps.drop (ps.length - 50) ∧
    (List.foldl (trailPush 50) [] ps).length = 50 := by
  have hgen := trailPush_foldl 50 ps [] (by simp)
  simp only [List.nil_append, List.length_nil, Nat.zero_add] at hgen
  refine ⟨hgen, ?_⟩
  rw [hgen, List.length_drop]
  omega

/-- C8, witness: the amended theorem applied to the 52 concrete samples. -/
theorem c8_trail_fifo_witness :
    50 < c8Samples.length ∧
    (List.foldl (trailPush 50) [] c8Samples =
       c8Samples.drop (c8Samples.length - 50) ∧
     (List.foldl (trailPush 50) [] c8Samples).length = 50) :=
  ⟨by with_unfolding_all decide,
   c8_trail_fifo_amended c8Samples (by with_unfolding_all decide)⟩
